import Mathlib

/-!
Verification of `InputXGradient.attribute`
(src/captum/attr/_core/input_x_gradient.py).

The method is embedded as a pure function.  A tensor is modelled as a
shape, a flat list of integer entries and the `requires_grad` flag; the
in-place flag mutation that `apply_gradient_requirements` /
`undo_gradient_requirements` perform on the caller's tensors is rendered
by explicit state passing: `attributeFn` returns, next to the Python
return value, the final state of the formatted input tensors, on the
success path as well as on the error path.  The injected gradient
capability (`self.gradient_func`) may fail, which is rendered by
`Except`; an `Except.error` result of `attributeFn` models a Python
exception propagating out of `attribute`.
-/

namespace InputXGradient

/-- A tensor: its shape, its flat numeric data and its `requires_grad`
flag. -/
structure Tensor where
  shape : List Nat
  data : List Int
  requiresGrad : Bool
deriving Repr, DecidableEq, Inhabited

/-- The Python argument `inputs`: either a bare tensor or a tuple of
tensors. -/
inductive Inputs where
  | single : Tensor → Inputs
  | tuple : List Tensor → Inputs
deriving Repr, DecidableEq, Inhabited

/-- `isinstance(inputs, tuple)`. -/
def Inputs.isTuple : Inputs → Bool
  | .single _ => false
  | .tuple _ => true

/-- Modelled from the spec: `format_input`
(captum/attr/_utils/common.py, not under src/) wraps a bare tensor into
a one-element collection and passes a tuple through unchanged. -/
def format_input : Inputs → List Tensor
  | .single t => [t]
  | .tuple ts => ts

/-- Modelled from the spec: `_format_attributions`
(captum/attr/_utils/common.py, not under src/): if `is_inputs_tuple` is
false, return the single element; otherwise return the full ordered
sequence. -/
def format_attributions (isTuple : Bool) (attrs : List Tensor) : Inputs :=
  if isTuple then .tuple attrs else .single attrs.headI

/-- Force gradient tracking on for one tensor (the per-tensor effect of
`apply_gradient_requirements`). -/
def forceOn (t : Tensor) : Tensor := { t with requiresGrad := true }

/-- Modelled from the spec: `apply_gradient_requirements`
(captum/attr/_utils/gradient.py, not under src/) captures each tensor's
current differentiability flag and forces tracking on, returning the
mask of prior flags together with the updated tensors (state-passing
rendering of the in-place mutation). -/
def apply_gradient_requirements (ts : List Tensor) :
    List Bool × List Tensor :=
  (ts.map Tensor.requiresGrad, ts.map forceOn)

/-- Modelled from the spec: `undo_gradient_requirements`
(captum/attr/_utils/gradient.py, not under src/) restores the flags
using the captured mask: only flags that were previously off are reset
off; previously-on flags remain on. -/
def undo_gradient_requirements (ts : List Tensor) (mask : List Bool) :
    List Tensor :=
  List.zipWith (fun t m => if m then t else { t with requiresGrad := false })
    ts mask

/-- Elementwise tensor product, the `input * gradient` of the source on
shape-matched tensors: a fresh tensor carrying the input's shape and the
pointwise products. -/
def tmul (a b : Tensor) : Tensor :=
  { shape := a.shape
    data := List.zipWith (· * ·) a.data b.data
    requiresGrad := a.requiresGrad || b.requiresGrad }

/-- The argument record handed to the injected gradient capability
`self.gradient_func(forward_func, inputs, target, additional_forward_args)`. -/
structure GradCall (F T A : Type) where
  forward_func : F
  inputs : List Tensor
  target : T
  additional_forward_args : A
deriving Repr, DecidableEq

/-- `InputXGradient.attribute`
(src/captum/attr/_core/input_x_gradient.py, lines 74-87), with the
gradient capability injected as `gradFn`.  The second component of the
result is the final state of the formatted input tensors: note that on
the error path `undo_gradient_requirements` is never reached, exactly as
in the source, which calls it only after the gradient step with no
try/finally. -/
def attributeFn {F T A E : Type}
    (gradFn : GradCall F T A → Except E (List Tensor))
    (forward_func : F) (inputs : Inputs) (target : T)
    (additional_forward_args : A) : Except E Inputs × List Tensor :=
  let is_inputs_tuple := inputs.isTuple
  let ins := format_input inputs
  let p := apply_gradient_requirements ins
  let gradient_mask := p.1
  let ins1 := p.2
  match gradFn ⟨forward_func, ins1, target, additional_forward_args⟩ with
  | .error e => (.error e, ins1)
  | .ok gradients =>
      let attributions := List.zipWith tmul ins1 gradients
      let ins2 := undo_gradient_requirements ins1 gradient_mask
      (.ok (format_attributions is_inputs_tuple attributions), ins2)

/-- Restoring after forcing gives back the original tensors. -/
theorem undo_apply_eq (ts : List Tensor) :
    undo_gradient_requirements (ts.map forceOn) (ts.map Tensor.requiresGrad)
      = ts := by
  induction ts with
  | nil => rfl
  | cons t ts ih =>
      cases t with
      | mk sh da rg =>
          cases rg <;>
            simp [undo_gradient_requirements, forceOn] at ih ⊢ <;>
            exact ih

/-- Claim C4: `attribute` performs no local error recovery: an error
raised by the gradient capability propagates to the caller unmodified,
and on such a failure no attribution value is returned — the result is
the very same error, with no partial attribution result. -/
theorem C4_error_propagation {F T A E : Type}
    (gradFn : GradCall F T A → Except E (List Tensor))
    (fw : F) (inputs : Inputs) (target : T) (args : A) (e : E)
    (herr : gradFn ⟨fw, (format_input inputs).map forceOn, target, args⟩
      = .error e) :
    (attributeFn gradFn fw inputs target args).1 = .error e := by
  simp only [attributeFn, apply_gradient_requirements]
  rw [herr]

/-- Witness for C4 at a concrete failing gradient capability. -/
theorem C4_error_propagation_witness :
    (attributeFn
        (fun _ : GradCall Nat Nat Nat => Except.error 7)
        0 (Inputs.single ⟨[1], [5], false⟩) 0 0).1 = .error 7 :=
  C4_error_propagation _ 0 (Inputs.single ⟨[1], [5], false⟩) 0 0 7 rfl

/-- Claim C6: the `target` and `additional_forward_args` values supplied
by the caller are forwarded to the gradient capability unchanged, in the
positions its contract specifies (third and fourth argument), for
arbitrary types of target and extra arguments — so the core never
inspects, alters or differentiates them.  Shown by instrumenting the
capability to report the exact argument record it receives. -/
theorem C6_target_args_forwarded {F T A : Type}
    (fw : F) (inputs : Inputs) (target : T) (args : A) :
    (attributeFn (E := GradCall F T A) (fun c => .error c)
        fw inputs target args).1
      = .error ⟨fw, (format_input inputs).map forceOn, target, args⟩ := by
  rfl

/-- Claim C1 counterexample: the claim asserts that each input tensor's
differentiability flag is restored even when the gradient capability
raises.  At a concrete single-tensor call whose gradient capability
fails, the tensor entered with the flag off and leaves with the flag on:
the source calls `undo_gradient_requirements` only after the gradient
step, with no guaranteed-cleanup construct. -/
theorem C1_counterexample :
    ¬ ((attributeFn
          (fun _ : GradCall Nat Nat Nat =>
            (Except.error 7 : Except Nat (List Tensor)))
          0 (Inputs.single ⟨[1], [5], false⟩) 0 0).2.map Tensor.requiresGrad
        = (format_input (Inputs.single ⟨[1], [5], false⟩)).map
            Tensor.requiresGrad) := by
  decide

/-- Claim C1 (amended): on a successful call every tensor's
differentiability flag is restored to its pre-call value; but when the
gradient capability raises, the flags are not restored — every formatted
input tensor leaves the call with the flag forced on. -/
theorem C1_flag_restoration {F T A E : Type}
    (gradFn : GradCall F T A → Except E (List Tensor))
    (fw : F) (inputs : Inputs) (target : T) (args : A) :
    (∀ gs, gradFn ⟨fw, (format_input inputs).map forceOn, target, args⟩
        = .ok gs →
      (attributeFn gradFn fw inputs target args).2.map Tensor.requiresGrad
        = (format_input inputs).map Tensor.requiresGrad) ∧
    (∀ e, gradFn ⟨fw, (format_input inputs).map forceOn, target, args⟩
        = .error e →
      (attributeFn gradFn fw inputs target args).2.map Tensor.requiresGrad
        = (format_input inputs).map (fun _ => true)) := by
  constructor
  · intro gs hok
    simp only [attributeFn, apply_gradient_requirements]
    rw [hok]
    simp only []
    rw [undo_apply_eq]
  · intro e herr
    simp only [attributeFn, apply_gradient_requirements]
    rw [herr]
    simp [forceOn, Function.comp_def]

/-- Witness for C1 (amended), error branch, at a concrete failing
gradient capability. -/
theorem C1_flag_restoration_witness :
    (attributeFn
        (fun _ : GradCall Nat Nat Nat =>
          (Except.error 7 : Except Nat (List Tensor)))
        0 (Inputs.single ⟨[1], [5], false⟩) 0 0).2.map Tensor.requiresGrad
      = (format_input (Inputs.single ⟨[1], [5], false⟩)).map
          (fun _ => true) :=
  (C1_flag_restoration _ 0 (Inputs.single ⟨[1], [5], false⟩) 0 0).2 7 rfl

/-- Claim C9: on a successful call, `attribute` leaves every caller
tensor unchanged — data, shape and flag of each formatted input tensor
after the call are identical to their pre-call values; the only mutation
is the transient differentiability flag, restored before return. -/
theorem C9_no_side_effects_on_success {F T A E : Type}
    (gradFn : GradCall F T A → Except E (List Tensor))
    (fw : F) (inputs : Inputs) (target : T) (args : A) (gs : List Tensor)
    (hok : gradFn ⟨fw, (format_input inputs).map forceOn, target, args⟩
      = .ok gs) :
    (attributeFn gradFn fw inputs target args).2 = format_input inputs := by
  simp only [attributeFn, apply_gradient_requirements]
  rw [hok]
  simp only []
  exact undo_apply_eq _

/-- Witness for C9 at a concrete successful call. -/
theorem C9_no_side_effects_witness :
    (attributeFn
        (fun _ : GradCall Nat Nat Nat =>
          (Except.ok [⟨[1], [2], true⟩] : Except Nat (List Tensor)))
        0 (Inputs.single ⟨[1], [5], false⟩) 0 0).2
      = format_input (Inputs.single ⟨[1], [5], false⟩) :=
  C9_no_side_effects_on_success _ 0 (Inputs.single ⟨[1], [5], false⟩) 0 0
    [⟨[1], [2], true⟩] rfl

/-- Claim C3: when the gradient capability returns one gradient per
input, `attribute` mirrors the caller's convention exactly: the result
is a tuple if and only if the input was a tuple (a one-element tuple
included), and the returned collection has the same length as the input
collection. -/
theorem C3_tuple_mirroring {F T A E : Type}
    (gradFn : GradCall F T A → Except E (List Tensor))
    (fw : F) (inputs : Inputs) (target : T) (args : A) (gs : List Tensor)
    (hok : gradFn ⟨fw, (format_input inputs).map forceOn, target, args⟩
      = .ok gs)
    (hlen : gs.length = (format_input inputs).length) :
    ∃ r : Inputs, (attributeFn gradFn fw inputs target args).1 = .ok r ∧
      r.isTuple = inputs.isTuple ∧
      (format_input r).length = (format_input inputs).length := by
  refine ⟨format_attributions inputs.isTuple
      (List.zipWith tmul ((format_input inputs).map forceOn) gs),
      ?_, ?_, ?_⟩
  · simp only [attributeFn, apply_gradient_requirements]
    rw [hok]
  · cases inputs <;> simp [format_attributions, Inputs.isTuple]
  · cases inputs with
    | single t => simp [format_attributions, Inputs.isTuple, format_input]
    | tuple ts =>
        simp only [format_attributions, Inputs.isTuple, format_input,
          if_pos] at hlen ⊢
        simp only [List.length_zipWith, List.length_map]
        omega

/-- Witness for C3 at a concrete one-element-tuple call. -/
theorem C3_tuple_mirroring_witness :
    ∃ r : Inputs,
      (attributeFn
          (fun _ : GradCall Nat Nat Nat =>
            (Except.ok [⟨[1], [3], false⟩] : Except Nat (List Tensor)))
          0 (Inputs.tuple [⟨[1], [5], false⟩]) 0 0).1 = .ok r ∧
      r.isTuple = (Inputs.tuple [⟨[1], [5], false⟩]).isTuple ∧
      (format_input r).length
        = (format_input (Inputs.tuple [⟨[1], [5], false⟩])).length :=
  C3_tuple_mirroring _ 0 (Inputs.tuple [⟨[1], [5], false⟩]) 0 0
    [⟨[1], [3], false⟩] rfl rfl

/-- Claim C10: when the gradient capability returns a collection whose
length differs from the input collection's, `attribute` raises no error
and silently returns min(inputs, gradients) attributions: the pairing
is a zip that truncates to the shorter sequence. -/
theorem C10_zip_truncation {F T A E : Type}
    (gradFn : GradCall F T A → Except E (List Tensor))
    (fw : F) (ts gs : List Tensor) (target : T) (args : A)
    (hok : gradFn ⟨fw, ts.map forceOn, target, args⟩ = .ok gs) :
    ∃ out : List Tensor,
      (attributeFn gradFn fw (.tuple ts) target args).1
        = .ok (.tuple out) ∧
      out.length = min ts.length gs.length := by
  refine ⟨List.zipWith tmul (ts.map forceOn) gs, ?_, ?_⟩
  · simp only [attributeFn, apply_gradient_requirements, format_input]
    rw [hok]
    rfl
  · simp [List.length_zipWith]

/-- Witness for C10: two inputs, one gradient, one attribution — and no
error. -/
theorem C10_zip_truncation_witness :
    ∃ out : List Tensor,
      (attributeFn
          (fun _ : GradCall Nat Nat Nat =>
            (Except.ok [⟨[1], [3], false⟩] : Except Nat (List Tensor)))
          0 (Inputs.tuple [⟨[1], [5], false⟩, ⟨[1], [6], false⟩]) 0 0).1
        = .ok (.tuple out) ∧
      out.length
        = min ([⟨[1], [5], false⟩, ⟨[1], [6], false⟩] : List Tensor).length
            ([⟨[1], [3], false⟩] : List Tensor).length :=
  C10_zip_truncation _ 0 [⟨[1], [5], false⟩, ⟨[1], [6], false⟩]
    [⟨[1], [3], false⟩] 0 0 rfl

/-- On a tuple call whose gradient capability succeeds, the Python
return value is the tuple of pairwise products. -/
theorem attribute_tuple_ok {F T A E : Type}
    (gradFn : GradCall F T A → Except E (List Tensor))
    (fw : F) (ts gs : List Tensor) (target : T) (args : A)
    (hok : gradFn ⟨fw, ts.map forceOn, target, args⟩ = .ok gs) :
    (attributeFn gradFn fw (.tuple ts) target args).1
      = .ok (.tuple (List.zipWith tmul (ts.map forceOn) gs)) := by
  simp only [attributeFn, apply_gradient_requirements, format_input]
  rw [hok]
  rfl

/-- Pointwise products against an all-zero right factor list are all
zero. -/
theorem zipWith_mul_zero (as bs : List Int) (hb : ∀ x ∈ bs, x = 0) :
    ∀ x ∈ List.zipWith (· * ·) as bs, x = 0 := by
  induction as generalizing bs with
  | nil => intro x hx; simp at hx
  | cons a as ih =>
      cases bs with
      | nil => intro x hx; simp at hx
      | cons b bs =>
          intro x hx
          simp only [List.zipWith_cons_cons, List.mem_cons] at hx
          rcases hx with h | h
          · have hb0 : b = 0 := hb b (by simp)
            rw [h, hb0, mul_zero]
          · exact ih bs (fun y hy => hb y (by simp [hy])) x h

/-- Claim C2: the attribution at position i is the elementwise product
of input i and gradient i — its data is exactly the pointwise products,
its shape the input's shape, with no normalization, clipping, or sign
adjustment applied. -/
theorem C2_elementwise_product {F T A E : Type}
    (gradFn : GradCall F T A → Except E (List Tensor))
    (fw : F) (ts gs : List Tensor) (target : T) (args : A)
    (hok : gradFn ⟨fw, ts.map forceOn, target, args⟩ = .ok gs)
    (i : Nat) (hi : i < ts.length) (hig : i < gs.length) :
    ∃ out : List Tensor,
      (attributeFn gradFn fw (.tuple ts) target args).1
        = .ok (.tuple out) ∧
      ∃ hio : i < out.length,
        (out.get ⟨i, hio⟩).data
            = List.zipWith (· * ·) (ts.get ⟨i, hi⟩).data
                (gs.get ⟨i, hig⟩).data ∧
          (out.get ⟨i, hio⟩).shape = (ts.get ⟨i, hi⟩).shape := by
  refine ⟨List.zipWith tmul (ts.map forceOn) gs,
    attribute_tuple_ok gradFn fw ts gs target args hok, ?_⟩
  have hio : i < (List.zipWith tmul (ts.map forceOn) gs).length := by
    simp only [List.length_zipWith, List.length_map]
    omega
  refine ⟨hio, ?_, ?_⟩ <;>
    simp [List.get_eq_getElem, List.getElem_zipWith, List.getElem_map,
      tmul, forceOn]

/-- Witness for C2: input [1, 2, 3] against gradient [1, 1, 1]. -/
theorem C2_elementwise_product_witness :
    ∃ out : List Tensor,
      (attributeFn
          (fun _ : GradCall Nat Nat Nat =>
            (Except.ok [⟨[3], [1, 1, 1], false⟩] : Except Nat (List Tensor)))
          0 (Inputs.tuple [⟨[3], [1, 2, 3], false⟩]) 0 0).1
        = .ok (.tuple out) ∧
      ∃ hio : 0 < out.length,
        (out.get ⟨0, hio⟩).data
            = List.zipWith (· * ·)
                (([⟨[3], [1, 2, 3], false⟩] : List Tensor).get
                  ⟨0, by decide⟩).data
                (([⟨[3], [1, 1, 1], false⟩] : List Tensor).get
                  ⟨0, by decide⟩).data ∧
          (out.get ⟨0, hio⟩).shape
            = (([⟨[3], [1, 2, 3], false⟩] : List Tensor).get
                ⟨0, by decide⟩).shape :=
  C2_elementwise_product _ 0 [⟨[3], [1, 2, 3], false⟩]
    [⟨[3], [1, 1, 1], false⟩] 0 0 rfl 0 (by decide) (by decide)

/-- Claim C5: when the gradient capability honors its contract — one
gradient per input, gradient i shaped like input i — the output
collection has the same element count, ordering and per-element shape
(and data length) as the input collection. -/
theorem C5_shape_preservation {F T A E : Type}
    (gradFn : GradCall F T A → Except E (List Tensor))
    (fw : F) (ts gs : List Tensor) (target : T) (args : A)
    (hok : gradFn ⟨fw, ts.map forceOn, target, args⟩ = .ok gs)
    (hlen : gs.length = ts.length)
    (hshape : ∀ i (hg : i < gs.length) (ht : i < ts.length),
      (gs.get ⟨i, hg⟩).shape = (ts.get ⟨i, ht⟩).shape ∧
      (gs.get ⟨i, hg⟩).data.length = (ts.get ⟨i, ht⟩).data.length) :
    ∃ out : List Tensor,
      (attributeFn gradFn fw (.tuple ts) target args).1
        = .ok (.tuple out) ∧
      out.length = ts.length ∧
      ∀ i (ho : i < out.length) (ht : i < ts.length),
        (out.get ⟨i, ho⟩).shape = (ts.get ⟨i, ht⟩).shape ∧
        (out.get ⟨i, ho⟩).data.length = (ts.get ⟨i, ht⟩).data.length := by
  refine ⟨List.zipWith tmul (ts.map forceOn) gs,
    attribute_tuple_ok gradFn fw ts gs target args hok, ?_, ?_⟩
  · simp only [List.length_zipWith, List.length_map]
    omega
  · intro i ho ht
    have hg : i < gs.length := by omega
    obtain ⟨h1, h2⟩ := hshape i hg ht
    simp only [List.get_eq_getElem] at h1 h2 ⊢
    constructor
    · simp [List.getElem_zipWith, List.getElem_map, tmul, forceOn]
    · simp only [List.getElem_zipWith, List.getElem_map, tmul, forceOn,
        List.length_zipWith]
      omega

/-- Witness for C5 at a concrete contract-honoring call. -/
theorem C5_shape_preservation_witness :
    ∃ out : List Tensor,
      (attributeFn
          (fun _ : GradCall Nat Nat Nat =>
            (Except.ok [⟨[2], [4, 5], true⟩] : Except Nat (List Tensor)))
          0 (Inputs.tuple [⟨[2], [1, 2], false⟩]) 0 0).1
        = .ok (.tuple out) ∧
      out.length = ([⟨[2], [1, 2], false⟩] : List Tensor).length ∧
      ∀ i (ho : i < out.length)
        (ht : i < ([⟨[2], [1, 2], false⟩] : List Tensor).length),
        (out.get ⟨i, ho⟩).shape
            = (([⟨[2], [1, 2], false⟩] : List Tensor).get ⟨i, ht⟩).shape ∧
        (out.get ⟨i, ho⟩).data.length
            = (([⟨[2], [1, 2], false⟩] : List Tensor).get
                ⟨i, ht⟩).data.length :=
  C5_shape_preservation _ 0 [⟨[2], [1, 2], false⟩] [⟨[2], [4, 5], true⟩]
    0 0 rfl rfl (by decide)

/-- Claim C8: if the gradient returned for input i is all-zero, the
attribution at position i is all-zero, whatever the values of input i. -/
theorem C8_zero_gradient {F T A E : Type}
    (gradFn : GradCall F T A → Except E (List Tensor))
    (fw : F) (ts gs : List Tensor) (target : T) (args : A)
    (hok : gradFn ⟨fw, ts.map forceOn, target, args⟩ = .ok gs)
    (i : Nat) (hi : i < ts.length) (hig : i < gs.length)
    (hzero : ∀ x ∈ (gs.get ⟨i, hig⟩).data, x = 0) :
    ∃ out : List Tensor,
      (attributeFn gradFn fw (.tuple ts) target args).1
        = .ok (.tuple out) ∧
      ∃ hio : i < out.length, ∀ x ∈ (out.get ⟨i, hio⟩).data, x = 0 := by
  refine ⟨List.zipWith tmul (ts.map forceOn) gs,
    attribute_tuple_ok gradFn fw ts gs target args hok, ?_⟩
  have hio : i < (List.zipWith tmul (ts.map forceOn) gs).length := by
    simp only [List.length_zipWith, List.length_map]
    omega
  refine ⟨hio, ?_⟩
  intro x hx
  simp only [List.get_eq_getElem, List.getElem_zipWith, List.getElem_map,
    tmul, forceOn] at hx
  refine zipWith_mul_zero _ _ ?_ x hx
  simpa only [List.get_eq_getElem] using hzero

/-- Witness for C8: zero gradient against a nonzero input. -/
theorem C8_zero_gradient_witness :
    ∃ out : List Tensor,
      (attributeFn
          (fun _ : GradCall Nat Nat Nat =>
            (Except.ok [⟨[2], [0, 0], false⟩] : Except Nat (List Tensor)))
          0 (Inputs.tuple [⟨[2], [7, -3], false⟩]) 0 0).1
        = .ok (.tuple out) ∧
      ∃ hio : 0 < out.length, ∀ x ∈ (out.get ⟨0, hio⟩).data, x = 0 :=
  C8_zero_gradient _ 0 [⟨[2], [7, -3], false⟩] [⟨[2], [0, 0], false⟩]
    0 0 rfl 0 (by decide) (by decide) (by decide)

/-- Modelled from the spec: the six-step linear pipeline of §4.1 —
normalize, record the tuple tag, enable gradient tracking, invoke the
gradient capability once, multiply elementwise, restore the flags,
denormalize — written out stage by stage, with the tuple tag decided
once at entry and consumed once at exit. -/
def specPipeline {F T A E : Type}
    (gradFn : GradCall F T A → Except E (List Tensor))
    (fw : F) (inputs : Inputs) (target : T) (args : A) :
    Except E Inputs × List Tensor :=
  let tag := inputs.isTuple
  let coll := format_input inputs
  let mask := coll.map Tensor.requiresGrad
  let collOn := coll.map forceOn
  match gradFn ⟨fw, collOn, target, args⟩ with
  | .error e => (.error e, collOn)
  | .ok gs =>
      (.ok (format_attributions tag (List.zipWith tmul collOn gs)),
        undo_gradient_requirements collOn mask)

/-- Claim C7: every call executes exactly the one linear pipeline
normalize → enable-grad → compute-gradient → multiply → restore-grad →
denormalize (`attributeFn` coincides with the stage-by-stage
`specPipeline` for every gradient capability and input), and its only
branching is the tuple tag: the single-tensor call runs the identical
internal pipeline as the corresponding one-element-tuple call, differing
only in the final denormalization of the returned value. -/
theorem C7_linear_pipeline {F T A E : Type}
    (gradFn : GradCall F T A → Except E (List Tensor))
    (fw : F) (target : T) (args : A) :
    (∀ inputs, attributeFn gradFn fw inputs target args
        = specPipeline gradFn fw inputs target args) ∧
    (∀ t : Tensor,
      attributeFn gradFn fw (Inputs.single t) target args
        = (Except.map
            (fun r : Inputs => Inputs.single (format_input r).headI)
            (attributeFn gradFn fw (Inputs.tuple [t]) target args).1,
          (attributeFn gradFn fw (Inputs.tuple [t]) target args).2)) := by
  constructor
  · intro inputs
    rfl
  · intro t
    simp only [attributeFn, apply_gradient_requirements, format_input,
      List.map_cons, List.map_nil]
    cases h : gradFn ⟨fw, [forceOn t], target, args⟩ <;>
      simp [Except.map, format_attributions, Inputs.isTuple, format_input]

end InputXGradient
